import Mathlib

/-!
Verification of the VAULT scan/roster linkage pipeline.

This file gives a shallow embedding of the name/DOB normalization, the
clinical-range validation, the roster index construction, the matching
cascade and the audit report writer of the pipeline scripts
(`match_xml_csv.py`, `extract_features.py`, `data_audit.py`), and proves
or refutes the stated properties about them.
-/

namespace Vault

/-! ### Python string primitives

Helpers modelling the Python `str` methods used by the pipeline:
`split()` (on whitespace), `strip()`, `upper()`, `title()`, substring
containment (`in`), `replace` (all occurrences, left to right), and
`count`. All are structurally recursive so that concrete evaluations
reduce in the kernel. -/

def isWsChar (c : Char) : Bool :=
  c = ' ' || c = '\t' || c = '\n' || c = '\r'

/-- Accumulator-based worker for `str.split()` with no argument:
splits on runs of whitespace, never producing empty tokens. -/
def splitWsAux : List Char → List Char → List String → List String
  | [], [], acc => acc.reverse
  | [], x :: xs, acc => (String.mk (x :: xs).reverse :: acc).reverse
  | c :: cs, cur, acc =>
    if isWsChar c then
      match cur with
      | [] => splitWsAux cs [] acc
      | x :: xs => splitWsAux cs [] (String.mk (x :: xs).reverse :: acc)
    else splitWsAux cs (c :: cur) acc

/-- Python `s.split()`. -/
def splitWs (s : String) : List String := splitWsAux s.toList [] []

/-- Python `s.strip()`. -/
def pyStrip (s : String) : String :=
  String.mk (((s.toList.dropWhile isWsChar).reverse.dropWhile isWsChar).reverse)

/-- Python `s.upper()` (ASCII, which covers the data). -/
def pyUpper (s : String) : String := String.mk (s.toList.map Char.toUpper)

/-- Python `s.lower()` (ASCII). -/
def pyLower (s : String) : String := String.mk (s.toList.map Char.toLower)

/-- Worker for Python `s.title()`: a cased character is uppercased when the
previous character is not cased, lowercased otherwise. -/
def pyTitleAux : Bool → List Char → List Char
  | _, [] => []
  | prevCased, c :: cs =>
    if c.isAlpha then
      (if prevCased then c.toLower else c.toUpper) :: pyTitleAux true cs
    else
      c :: pyTitleAux false cs

/-- Python `s.title()`. -/
def pyTitle (s : String) : String := String.mk (pyTitleAux false s.toList)

def isPrefixL : List Char → List Char → Bool
  | [], _ => true
  | _ :: _, [] => false
  | a :: as, b :: bs => a = b && isPrefixL as bs

def isSubL (needle : List Char) : List Char → Bool
  | [] => needle.isEmpty
  | c :: rest => isPrefixL needle (c :: rest) || isSubL needle rest

/-- Python `needle in hay` on strings. -/
def pyIn (needle hay : String) : Bool := isSubL needle.toList hay.toList

/-- Fuel-driven worker for Python `s.replace(pat, rep)` (replaces all
non-overlapping occurrences left to right; patterns here are nonempty).
The fuel is the length of the remaining list, which strictly decreases. -/
def replaceGo (pat rep : List Char) : Nat → List Char → List Char
  | _, [] => []
  | 0, l => l
  | fuel + 1, c :: rest =>
    if !pat.isEmpty && isPrefixL pat (c :: rest) then
      rep ++ replaceGo pat rep fuel (rest.drop (pat.length - 1))
    else
      c :: replaceGo pat rep fuel rest

/-- Python `s.replace(pat, rep)`. -/
def pyReplace (s pat rep : String) : String :=
  String.mk (replaceGo pat.toList rep.toList s.toList.length s.toList)

/-- Python `s.count(c)` for a single character. -/
def countChar (s : String) (c : Char) : Nat := s.toList.count c

/-- Python `' '.join(parts)`. -/
def joinSpace : List String → String
  | [] => ""
  | [s] => s
  | s :: rest => s ++ " " ++ joinSpace rest

/-- Python `int(s)` on a string of decimal digits. -/
def parseNatL (l : List Char) : Nat :=
  l.foldl (fun a c => a * 10 + (c.toNat - 48)) 0

/-- Zero-padded decimal rendering, modelling Python `f"{n:08d}"`-style
formats with the given width. -/
def padNat (width n : Nat) : String :=
  let ds := Nat.toDigits 10 n
  String.mk (List.replicate (width - ds.length) '0' ++ ds)

/-- Python `os.path.splitext(name)[0]`: everything before the last dot,
except that a purely-leading run of dots is not an extension separator. -/
def splitextStem (s : String) : String :=
  let l := s.toList
  match (l.reverse.findIdx? (· = '.')) with
  | none => s
  | some ri =>
    let k := l.length - 1 - ri
    if (l.take k).all (· = '.') then s else String.mk (l.take k)

/-! ### Python scalar values and float conversion

A pipeline cell/field is either Python `None` (also standing for a
missing pandas cell), an IEEE NaN, a string, or a finite float. Finite
floats are modelled as rationals; every comparison the pipeline performs
on them has the same truth value over the rationals. -/

inductive PyVal where
  | vnone
  | vnan
  | vstr (s : String)
  | vnum (q : ℚ)
deriving DecidableEq

/-- Model of `pd.isna` on a scalar: true for `None` and `NaN`. -/
def isNa : PyVal → Bool
  | .vnone => true
  | .vnan => true
  | _ => false

/-- Unsigned part of Python `float(s)`: digits with an optional single
decimal point (the exponent forms do not occur in this data). -/
def parseUnsignedQ (l : List Char) : Option ℚ :=
  let intPart := l.takeWhile Char.isDigit
  let rest := l.dropWhile Char.isDigit
  match rest with
  | [] => if intPart.isEmpty then none else some (parseNatL intPart : ℚ)
  | '.' :: frac =>
    if frac.all Char.isDigit && !(intPart.isEmpty && frac.isEmpty) then
      some ((parseNatL intPart : ℚ) + (parseNatL frac : ℚ) / 10 ^ frac.length)
    else none
  | _ => none

def parseFloatL : List Char → Option ℚ
  | '-' :: rest => (parseUnsignedQ rest).map Neg.neg
  | '+' :: rest => parseUnsignedQ rest
  | l => parseUnsignedQ l

/-- Python `float(value)`: the outer `none` is a raised
`ValueError`/`TypeError`, `some none` is a NaN result, `some (some q)` a
finite float. -/
def pyFloat : PyVal → Option (Option ℚ)
  | .vnone => none
  | .vnan => some none
  | .vnum q => some (some q)
  | .vstr s =>
    let t := pyStrip s
    if pyLower t = "nan" then some none
    else (parseFloatL t.toList).map some

/-! ### Clinical range validation (`extract_features.py`) -/

/-- The `FEATURE_RANGES` table from `extract_features.py` lines 27–43. -/
def FEATURE_RANGES : List (String × ℚ × ℚ) :=
  [("Age", 15, 70),
   ("WTW", 10, 14),
   ("ACD_internal", 2, 5),
   ("ACV", 100, 400),
   ("ACA_global", 20, 70),
   ("Pupil_diameter", 2, 8),
   ("TCRP_Km", 35, 55),
   ("TCRP_Astigmatism", 0, 10),
   ("AC_shape_ratio", 40, 200),
   ("SEQ", -25, 5),
   ("SimK_steep", 38, 52),
   ("CCT", 400, 700),
   ("BAD_D", -1, 15),
   ("Vault", 50, 2000),
   ("Lens_Size", 11, 14)]

def rangeFor (featureName : String) : Option (ℚ × ℚ) :=
  (FEATURE_RANGES.find? (fun p => p.1 == featureName)).map (·.2)

/-- The warning messages produced by `validate_value`, modelled
structurally (one constructor per f-string in the source). -/
inductive Warning where
  | sentinel (feat : String)
  | missing (feat : String)
  | outOfRange (feat : String) (v lo hi : ℚ)
  | nonNumeric (feat : String)
deriving DecidableEq

/-- Embedding of `validate_value` from `extract_features.py` lines 46–70: float
conversion failure → invalid/discarded; sentinel `-9999` → invalid /
discarded; NaN → invalid/discarded; out of the configured range →
invalid but the numeric value is retained; otherwise valid. -/
def validate_value (value : PyVal) (featureName : String) :
    Bool × Option ℚ × Option Warning :=
  match pyFloat value with
  | none => (false, none, some (.nonNumeric featureName))
  | some none => (false, none, some (.missing featureName))
  | some (some v) =>
    if v = -9999 then (false, none, some (.sentinel featureName))
    else
      match rangeFor featureName with
      | some (lo, hi) =>
        if v < lo ∨ v > hi then (false, some v, some (.outOfRange featureName v lo hi))
        else (true, some v, none)
      | none => (true, some v, none)

/-- A scan's raw feature fields as they stand after the XML walk of
`extract_xml_features` (strings from the file, a float for the computed
`Age`, `None` where no key was found). -/
structure RawScan where
  age : PyVal
  wtw : PyVal
  acd_internal : PyVal
  acv : PyVal
  aca_global : PyVal
  pupil_diameter : PyVal
  tcrp_km : PyVal
  tcrp_astigmatism : PyVal
  simk_steep : PyVal
  cct : PyVal
  bad_d : PyVal
deriving DecidableEq

/-- One iteration of the validation loop of `extract_xml_features`
(lines 193–198): fields that are `None` are skipped, any other field is
replaced by the cleaned value, and the warning (if any) is collected. -/
def valStep (p : PyVal) (featureName : String) : Option ℚ × Option Warning :=
  match p with
  | .vnone => (none, none)
  | _ => ((validate_value p featureName).2.1, (validate_value p featureName).2.2)

/-- The scan record after validation and the derived-feature step. -/
structure ValidatedScan where
  age : Option ℚ
  wtw : Option ℚ
  acd_internal : Option ℚ
  acv : Option ℚ
  aca_global : Option ℚ
  pupil_diameter : Option ℚ
  tcrp_km : Option ℚ
  tcrp_astigmatism : Option ℚ
  simk_steep : Option ℚ
  cct : Option ℚ
  bad_d : Option ℚ
  ac_shape_ratio : Option ℚ
  validation_warnings : List Warning
deriving DecidableEq

/-- Lines 189–218 of `extract_features.py`: validate the eleven numeric
features in the source's order, then compute `AC_shape_ratio =
ACV / ACD_internal` only when both inputs are present and
`ACD_internal > 0`, range-validating the ratio itself and nulling it
when that validation fails. -/
def validateScan (r : RawScan) : ValidatedScan :=
  let a := valStep r.age "Age"
  let w := valStep r.wtw "WTW"
  let ai := valStep r.acd_internal "ACD_internal"
  let av := valStep r.acv "ACV"
  let ag := valStep r.aca_global "ACA_global"
  let pu := valStep r.pupil_diameter "Pupil_diameter"
  let tk := valStep r.tcrp_km "TCRP_Km"
  let ta := valStep r.tcrp_astigmatism "TCRP_Astigmatism"
  let sk := valStep r.simk_steep "SimK_steep"
  let cc := valStep r.cct "CCT"
  let bd := valStep r.bad_d "BAD_D"
  let warns := [a.2, w.2, ai.2, av.2, ag.2, pu.2, tk.2, ta.2, sk.2, cc.2, bd.2].filterMap id
  let acShape : Option ℚ × Option Warning :=
    match av.1, ai.1 with
    | some acvVal, some acdVal =>
      if acdVal > 0 then
        let ratio := acvVal / acdVal
        let rv := validate_value (.vnum ratio) "AC_shape_ratio"
        if rv.1 then (some ratio, none) else (none, rv.2.2)
      else (none, none)
    | _, _ => (none, none)
  { age := a.1, wtw := w.1, acd_internal := ai.1, acv := av.1, aca_global := ag.1,
    pupil_diameter := pu.1, tcrp_km := tk.1, tcrp_astigmatism := ta.1,
    simk_steep := sk.1, cct := cc.1, bad_d := bd.1,
    ac_shape_ratio := acShape.1,
    validation_warnings := warns ++ acShape.2.toList }

/-! ### Name normalization and variants (`match_xml_csv.py`) -/

/-- Embedding of `normalize_name` (lines 76–90): collapse whitespace, join
hyphen-adjacent fragments, title-case, strip. -/
def normalizeName (name : String) : String :=
  if name = "" then ""
  else
    let n := joinSpace (splitWs name)
    let n := pyReplace (pyReplace n "- " "-") " -" "-"
    let n := pyTitle n
    pyStrip n

def suffixList : List String :=
  ["Jr", "Jr.", "Sr", "Sr.", "II", "III", "IV", "V", "2Nd", "2Nd."]

/-- Embedding of `remove_name_suffixes` (lines 93–108): drop suffix tokens (matched
case-insensitively), returning the rejoined base name and the last
suffix seen. -/
def removeNameSuffixes (name : String) : String × Option String :=
  let r := (splitWs name).foldl
    (fun (acc : List String × Option String) part =>
      if suffixList.contains part || (suffixList.map pyUpper).contains (pyUpper part) then
        (acc.1, some part)
      else (acc.1 ++ [part], acc.2))
    ([], none)
  (joinSpace r.1, r.2)

/-- The `spelling_variations` dict (lines 132–149), in insertion order. -/
def spellingVariations : List (String × List String) :=
  [("Russel", ["Russell", "Russel"]),
   ("Russell", ["Russell", "Russel"]),
   ("Micheal", ["Michael", "Micheal"]),
   ("Michael", ["Michael", "Micheal"]),
   ("Jon", ["John", "Jon"]),
   ("John", ["John", "Jon"]),
   ("Stephany", ["Stephanie", "Stephany"]),
   ("Stephanie", ["Stephanie", "Stephany"]),
   ("Roseanna", ["Rosanna", "Roseanna"]),
   ("Rosanna", ["Rosanna", "Roseanna"]),
   ("Jenifer", ["Jennifer", "Jenifer"]),
   ("Jennifer", ["Jennifer", "Jenifer"]),
   ("Brenton", ["Benton", "Brenton"]),
   ("Benton", ["Benton", "Brenton"]),
   ("Schwausch", ["Schwasuch", "Schwausch"]),
   ("Schwasuch", ["Schwasuch", "Schwausch"])]

/-- Stage of `create_name_variations` at lines 124–129: strip suffixes,
add the suffix-free base as a variation and continue with it. Returns
the variation set so far and the running `name`. -/
def suffixStage (n0 : String) : Finset String × String :=
  let sr := removeNameSuffixes n0
  match sr.2 with
  | some _ => (insert sr.1 {n0}, sr.1)
  | none => ({n0}, n0)

/-- Stage of `create_name_variations` at lines 151–158: walk the
spelling dict in insertion order; on a substring hit add each
substituted full string and rebind the running name to the first
(standard) spelling. -/
def spellingStage (p : Finset String × String) : Finset String × String :=
  spellingVariations.foldl
    (fun (acc : Finset String × String) kv =>
      if pyIn kv.1 acc.2 then
        (kv.2.foldl (fun v variant => insert (pyReplace acc.2 kv.1 variant) v) acc.1,
         pyReplace acc.2 kv.1 (kv.2.headD acc.2))
      else acc)
    p

/-- Stage of `create_name_variations` at lines 160–188: for multi-part
names add the original and reversed orders, hyphen-aware recombinations
for 3+ parts, and per-token spelling substitutions in both orders. -/
def splitStage (vars2 : Finset String) (parts : List String) : Finset String :=
  if parts.length ≥ 2 then
    let vars3 := insert (joinSpace parts) (insert (joinSpace parts.reverse) vars2)
    let vars4 :=
      if parts.length > 2 then
        if pyIn "-" (parts.headD "") then
          insert (joinSpace parts)
            (insert (joinSpace ([parts.getD 1 "", parts.headD ""] ++ parts.drop 2)) vars3)
        else if pyIn "-" (parts.getD 1 "") then
          insert (joinSpace ([parts.getD 1 "", parts.headD ""] ++ parts.drop 2)) vars3
        else vars3
      else vars3
    (List.range parts.length).foldl
      (fun v i =>
        match spellingVariations.find? (fun kv => kv.1 == parts.getD i "") with
        | some kv =>
          kv.2.foldl
            (fun v2 variant =>
              let newParts := parts.set i variant
              insert (joinSpace newParts.reverse) (insert (joinSpace newParts) v2))
            v
        | none => v)
      vars4
  else vars2

/-- Embedding of `create_name_variations` (lines 111–189). The Python function
builds a `set`; the result is a `Finset String`. The running `name` is
rebound exactly where the source rebinds it (after suffix stripping and
after each applicable full-string spelling substitution); the split
stage then works on the whitespace parts of the final running name. -/
def createNameVariations (name : String) : Finset String :=
  if name = "" then ∅
  else
    let q := spellingStage (suffixStage (normalizeName name))
    splitStage q.1 (splitWs q.2)

/-! ### DOB normalization (`match_xml_csv.py` lines 192–226)

`pd.to_datetime` is an external library call; it is modelled on the two
date shapes this pipeline feeds it (ISO year-month-day and US
month/day/year), returning `none` (NaT) on anything else, which is the
behavior of `errors='coerce'`. -/

structure PDate where
  y : Nat
  m : Nat
  d : Nat
deriving DecidableEq

def isLeapYear (y : Nat) : Bool :=
  y % 4 = 0 && (y % 100 ≠ 0 || y % 400 = 0)

def daysInMonth (y m : Nat) : Nat :=
  if m = 2 then (if isLeapYear y then 29 else 28)
  else if m = 4 || m = 6 || m = 9 || m = 11 then 30
  else 31

def validDate (y m d : Nat) : Bool :=
  1 ≤ y && y ≤ 9999 && 1 ≤ m && m ≤ 12 && 1 ≤ d && d ≤ daysInMonth y m

/-- Split a string at a separator character (for date fields). -/
def splitChar (sep : Char) (s : String) : List String :=
  (s.toList.foldr
    (fun c (acc : List (List Char)) =>
      match acc with
      | [] => if c = sep then [[], []] else [[c]]
      | g :: gs => if c = sep then [] :: (g :: gs) else (c :: g) :: gs)
    []).map String.mk

def allDigits (s : String) : Bool := s ≠ "" && s.toList.all Char.isDigit

/-- Strict `datetime.strptime(s, '%Y-%m-%d')`: dash-separated digit
groups forming a valid calendar date. -/
def parseIsoDate (s : String) : Option PDate :=
  match splitChar '-' s with
  | [ys, ms, ds] =>
    if allDigits ys && allDigits ms && allDigits ds && ys.length ≤ 4
        && ms.length ≤ 2 && ds.length ≤ 2 then
      let y := parseNatL ys.toList
      let m := parseNatL ms.toList
      let d := parseNatL ds.toList
      if validDate y m d then some ⟨y, m, d⟩ else none
    else none
  | _ => none

/-- US-style `M/D/YYYY`, the other shape appearing in the roster. -/
def parseUsDate (s : String) : Option PDate :=
  match splitChar '/' s with
  | [ms, ds, ys] =>
    if allDigits ys && allDigits ms && allDigits ds && ys.length = 4
        && ms.length ≤ 2 && ds.length ≤ 2 then
      let y := parseNatL ys.toList
      let m := parseNatL ms.toList
      let d := parseNatL ds.toList
      if validDate y m d then some ⟨y, m, d⟩ else none
    else none
  | _ => none

/-- Modelled external call: `pd.to_datetime(s, errors='coerce')` on the
formats this pipeline produces; anything unparseable is NaT (`none`). -/
def pdToDatetime (s : String) : Option PDate :=
  match parseIsoDate s with
  | some d => some d
  | none => parseUsDate s

/-- Python `dt.strftime('%Y-%m-%d')`. -/
def formatPDate (d : PDate) : String :=
  padNat 4 d.y ++ "-" ++ padNat 2 d.m ++ "-" ++ padNat 2 d.d

/-- Embedding of `normalize_dob` (lines 192–226) on a string input. The `Except`
layer records the uncaught exception path: `dob_str.split()[0]` raises
`IndexError` when a non-empty input is all whitespace. On parse failure
the function falls through to `return str(dob_str).strip()`, where
`dob_str` is by then the (possibly `018`→`198`-repaired) first token. -/
def normalizeDob (s : String) : Except String String :=
  if s = "" then .ok ""
  else
    match splitWs s with
    | [] => .error "IndexError"
    | tok :: _ =>
      let tok :=
        if pyIn "018" tok || pyIn "/018" tok then
          pyReplace (pyReplace tok "/018" "/198") "018" "198"
        else tok
      if tok.length = 10 ∧ countChar tok '-' = 2 then .ok tok
      else
        match pdToDatetime tok with
        | some d => .ok (formatPDate d)
        | none => .ok (pyStrip tok)

instance {α β : Type} [DecidableEq α] [DecidableEq β] : DecidableEq (Except α β) :=
  fun a b =>
    match a, b with
    | .ok x, .ok y =>
      if h : x = y then isTrue (by rw [h]) else isFalse (by simp [h])
    | .error x, .error y =>
      if h : x = y then isTrue (by rw [h]) else isFalse (by simp [h])
    | .ok _, .error _ => isFalse (by simp)
    | .error _, .ok _ => isFalse (by simp)

/-! ### Roster rows and index entries

`load_csv_data` (`match_xml_csv.py` lines 229–289) and
`load_csv_with_seq` (`extract_features.py` lines 282–357) both walk the
roster rows and build one index entry per row. The per-row entry
construction is embedded here; `normalize_dob`'s uncaught-exception
path propagates through the `Except` layer. -/

/-- One roster CSV row; cells that may be blank carry `PyVal.vnone` for
pandas NaN. -/
structure RosterRow where
  name : String
  dob : String
  eye : String
  exchangeFlag : String
  icl_size : PyVal
  vault : PyVal
  exch_size : PyVal
  exch_vault : PyVal
  sphere : PyVal
  cyl : PyVal
  icl_power : PyVal
  exch_power : PyVal
  dos : PyVal
  target : PyVal
deriving DecidableEq

/-- Python `str(row.get('Exchange?', '')).strip().upper() == 'YES'`. -/
def isExchange (row : RosterRow) : Bool :=
  pyUpper (pyStrip row.exchangeFlag) == "YES"

/-- Python `x if pd.notna(x) else ''`. -/
def notnaOrEmpty (p : PyVal) : PyVal :=
  if isNa p then .vstr "" else p

/-- Python `x if pd.notna(x) else None`. -/
def notnaOrNone (p : PyVal) : Option PyVal :=
  if isNa p then none else some p

/-- The `data_entry` dict built by `load_csv_data` (lines 262–277). -/
structure MatchEntry where
  name : String
  dob : String
  eye : String
  lens_size : PyVal
  vault : PyVal
  exchange : Bool
  original_lens_size : PyVal
  original_vault : PyVal
  exchanged_lens_size : PyVal
  exchanged_vault : PyVal
  dos : PyVal
  target : PyVal
  icl_power : PyVal
deriving DecidableEq

/-- Per-row body of `load_csv_data` (lines 246–284): when
`exchange` is set the exchanged size/vault are selected as the outcome,
and the raw original and exchanged cells are carried alongside. -/
def loadCsvDataEntry (row : RosterRow) : Except String MatchEntry := do
  let name := normalizeName row.name
  let dob ← normalizeDob row.dob
  let eye := pyUpper (pyStrip row.eye)
  let exchange := isExchange row
  let lens_size := if exchange then row.exch_size else row.icl_size
  let vault := if exchange then row.exch_vault else row.vault
  .ok { name, dob, eye,
        lens_size := notnaOrEmpty lens_size,
        vault := notnaOrEmpty vault,
        exchange,
        original_lens_size := row.icl_size,
        original_vault := row.vault,
        exchanged_lens_size := row.exch_size,
        exchanged_vault := row.exch_vault,
        dos := row.dos, target := row.target, icl_power := row.icl_power }

/-- The `data_entry` dict built by `load_csv_with_seq`
(`extract_features.py` lines 336–345). It has no fields for the
original (pre-exchange) size and vault. -/
structure SeqEntry where
  name : String
  dob : String
  eye : String
  lens_size : Option PyVal
  vault : Option PyVal
  exchange : Bool
  seq : Option ℚ
  icl_power : Option ℚ
deriving DecidableEq

/-- Per-row body of `load_csv_with_seq` (lines 296–351): exchange-aware
outcome and power selection, plus `SEQ = Sphere + Cyl/2` (or `Sphere`
alone when `Cyl` is absent) with conversion errors swallowed by the
source's inner `try`. The `ICL Power` float conversion is not inside a
`try`, so its failure is an error. -/
def loadCsvWithSeqEntry (row : RosterRow) : Except String SeqEntry := do
  let name := normalizeName row.name
  let dob ← normalizeDob row.dob
  let eye := pyUpper (pyStrip row.eye)
  let exchange := isExchange row
  let lens_size := if exchange then row.exch_size else row.icl_size
  let vault := if exchange then row.exch_vault else row.vault
  let seq : Option ℚ :=
    if !isNa row.sphere && !isNa row.cyl then
      match pyFloat row.sphere, pyFloat row.cyl with
      | some (some s), some (some c) => some (s + c / 2)
      | _, _ => none
    else if !isNa row.sphere && isNa row.cyl then
      match pyFloat row.sphere with
      | some (some s) => some s
      | _ => none
    else none
  let ip := if exchange then row.exch_power else row.icl_power
  let icl_power : Option ℚ ←
    if !isNa ip && ip ≠ .vstr "" then
      match pyFloat ip with
      | some (some q) => .ok (some q)
      | some none => .ok none
      | none => .error "ValueError"
    else .ok none
  .ok { name, dob, eye,
        lens_size := notnaOrNone lens_size,
        vault := notnaOrNone vault,
        exchange, seq, icl_power }

/-! ### The matching cascade (`match_xml_csv.py` lines 337–484)

The lookup dict is an association list of `(name, dob, eye)` keys; the
scan's name-variation set is iterated as a list (Python set iteration
order is unspecified, so the matcher is stated over an arbitrary list).
The `difflib.SequenceMatcher(...).ratio()` library call is a parameter
`ratio`. -/

structure MKey where
  name : String
  dob : String
  eye : String
deriving DecidableEq

abbrev Lookup := List (MKey × MatchEntry)

/-- Python `key in csv_lookup` and `csv_lookup[key]`. -/
def lookupFind (lk : Lookup) (k : MKey) : Option MatchEntry :=
  (lk.find? (fun p => p.1 == k)).map (·.2)

/-- The strategy tags of the cascade, in source order. The source has a
name-only equality pass (lines 363–377) between name+DOB and the fuzzy
passes. -/
inductive Strategy where
  | exact
  | name_dob_only
  | name_only
  | fuzzy_name
  | fuzzy_dob
  | partialSurname
deriving DecidableEq

structure MatchOutcome where
  key : MKey
  entry : MatchEntry
  strategy : Strategy
deriving DecidableEq

/-- Pass 1 (lines 341–348): first variant whose `(variant, dob, eye)`
key is in the lookup. -/
def tryExact (variations : List String) (dob eye : String) (lk : Lookup) :
    Option (MKey × MatchEntry) :=
  match variations with
  | [] => none
  | v :: rest =>
    match lookupFind lk ⟨v, dob, eye⟩ with
    | some e => some (⟨v, dob, eye⟩, e)
    | none => tryExact rest dob eye lk

/-- Pass 2 (lines 350–361): name and DOB equal, eye ignored. -/
def tryNameDob (variations : List String) (dob : String) (lk : Lookup) :
    Option (MKey × MatchEntry) :=
  match variations with
  | [] => none
  | v :: rest =>
    match lk.find? (fun p => p.1.name == v && p.1.dob == dob) with
    | some p => some p
    | none => tryNameDob rest dob lk

/-- Pass 3 (lines 363–377): name equal, DOB and eye ignored. -/
def tryNameOnly (variations : List String) (lk : Lookup) :
    Option (MKey × MatchEntry) :=
  match variations with
  | [] => none
  | v :: rest =>
    match lk.find? (fun p => p.1.name == v) with
    | some p => some p
    | none => tryNameOnly rest lk

/-- Pass 4 (lines 379–401): among entries whose DOB equals the scan DOB
exactly, take the best `ratio` over all variants (strict improvement,
as in the source), accepting only above 0.8. -/
def tryFuzzyName (ratio : String → String → ℚ) (variations : List String)
    (dob : String) (lk : Lookup) : Option (MKey × MatchEntry) :=
  let best := lk.foldl
    (fun (acc : ℚ × Option (MKey × MatchEntry)) p =>
      if p.1.dob == dob then
        variations.foldl
          (fun acc2 v =>
            let r := ratio (pyUpper v) (pyUpper p.1.name)
            if r > acc2.1 then (r, some p) else acc2)
          acc
      else acc)
    (0, none)
  if best.1 > 8 / 10 then best.2 else none

/-- Proleptic-Gregorian day number for the date-difference check. -/
def daysBeforeMonth (y m : Nat) : Nat :=
  (List.range (m - 1)).foldl (fun acc i => acc + daysInMonth y (i + 1)) 0

def toOrdinal (d : PDate) : Nat :=
  365 * (d.y - 1) + ((d.y - 1) / 4 + (d.y - 1) / 400 - (d.y - 1) / 100)
    + daysBeforeMonth d.y d.m + d.d

/-- Python `abs((xml_dob_date - csv_dob_date).days)`. -/
def dateDiffDays (a b : PDate) : Nat :=
  max (toOrdinal a) (toOrdinal b) - min (toOrdinal a) (toOrdinal b)

/-- Pass 5 (lines 403–440): DOB parseable on both sides and within 7
days but not equal, name similarity above 0.9. -/
def tryFuzzyDob (ratio : String → String → ℚ) (variations : List String)
    (dob : String) (lk : Lookup) : Option (MKey × MatchEntry) :=
  match parseIsoDate dob with
  | none => none
  | some xd =>
    let best := lk.foldl
      (fun (acc : ℚ × Option (MKey × MatchEntry)) p =>
        match parseIsoDate p.1.dob with
        | none => acc
        | some cd =>
          let diff := dateDiffDays xd cd
          if diff ≤ 7 && diff > 0 then
            variations.foldl
              (fun acc2 v =>
                let r := ratio (pyUpper v) (pyUpper p.1.name)
                if r > acc2.1 ∧ r > 9 / 10 then (r, some p) else acc2)
              acc
          else acc)
      (0, none)
    if best.1 > 9 / 10 then best.2 else none

/-- The `(first_name, surname)` split of lines 449–455 / 462–468. -/
def firstSurname (parts : List String) (reversed : Bool) : String × String :=
  if reversed then (parts.getLastD "", joinSpace parts.dropLast)
  else (parts.headD "", joinSpace parts.tail)

/-- Python `surname.split()[0]` (the surname here is always nonempty). -/
def headToken (s : String) : String := (splitWs s).headD ""

/-- Pass 6 (lines 442–483): partial-surname matching for compound
surnames, trying both orderings on both sides. -/
def tryPartialSurname (variations : List String) (lk : Lookup) :
    Option (MKey × MatchEntry) :=
  variations.findSome? fun v =>
    let parts := splitWs v
    if parts.length ≥ 2 then
      [false, true].findSome? fun rev =>
        let fs := firstSurname parts rev
        lk.findSome? fun p =>
          let cparts := splitWs p.1.name
          if cparts.length ≥ 2 then
            [false, true].findSome? fun crev =>
              let cfs := firstSurname cparts crev
              if fs.1 == cfs.1
                  && (pyIn fs.2 cfs.2 || pyIn cfs.2 fs.2
                      || headToken fs.2 == headToken cfs.2) then
                some p
              else none
          else none
    else none

/-- The full cascade of `match_xml_to_csv` for one scan: strategies are
tried in source order, short-circuiting on the first success; the two
fuzzy passes run only when the scan DOB is non-empty. -/
def matchScan (ratio : String → String → ℚ) (variations : List String)
    (dob eye : String) (lk : Lookup) : Option MatchOutcome :=
  match tryExact variations dob eye lk with
  | some (k, e) => some ⟨k, e, .exact⟩
  | none =>
  match tryNameDob variations dob lk with
  | some (k, e) => some ⟨k, e, .name_dob_only⟩
  | none =>
  match tryNameOnly variations lk with
  | some (k, e) => some ⟨k, e, .name_only⟩
  | none =>
  match (if dob ≠ "" then tryFuzzyName ratio variations dob lk else none) with
  | some (k, e) => some ⟨k, e, .fuzzy_name⟩
  | none =>
  match (if dob ≠ "" then tryFuzzyDob ratio variations dob lk else none) with
  | some (k, e) => some ⟨k, e, .fuzzy_dob⟩
  | none =>
  match tryPartialSurname variations lk with
  | some (k, e) => some ⟨k, e, .partialSurname⟩
  | none => none

/-! ### The `extract_features.py` call into `create_name_variations`

`extract_features.py` imports `create_name_variations` from
`match_xml_csv.py`, whose definition is `def create_name_variations(name)`
(line 111): it accepts no keyword other than its single positional
parameter. `merge_with_csv` (line 241) and `extract_all_features`
(line 402) invoke it as
`create_name_variations(name, assume_surname_first=True)`. Python call
semantics make any call carrying an unexpected keyword raise
`TypeError`; `kwargs` below lists the keyword names passed beyond the
positional argument. -/

def callCreateNameVariations (name : String) (kwargs : List String) :
    Except String (Finset String) :=
  if kwargs.isEmpty then .ok (createNameVariations name) else .error "TypeError"

/-- The identity-and-match prefix of `merge_with_csv`
(`extract_features.py` lines 227–267): records with an incomplete
identity return `None` before the call; complete identities reach the
keyworded `create_name_variations` call, whose continuation (exact then
name+DOB matching) is written out even though the call always raises.
Python set iteration order is unspecified; the dead continuation
iterates the variant set in sorted order. -/
def mergeWithCsvMatch (name dob eye : String) (lk : Lookup) :
    Except String (Option (MKey × MatchEntry)) :=
  if name = "" ∨ dob = "" ∨ eye = "" then .ok none
  else
    match callCreateNameVariations name ["assume_surname_first"] with
    | .error e => .error e
    | .ok vars =>
      let vl := vars.sort (· ≤ ·)
      match tryExact vl dob (pyUpper eye) lk with
      | some p => .ok (some p)
      | none => .ok (tryNameDob vl dob lk)

/-- The per-file matching loop of `extract_all_features`
(`extract_features.py` lines 384–504): files with incomplete identity
are skipped with a warning; the rest reach the keyworded
`create_name_variations` call (line 402) and, were it to return, the
four-strategy cascade of lines 405–470; rows accumulate only for
matched files. -/
def extractAllMatchLoop (ratio : String → String → ℚ)
    (scans : List (String × String × String)) (lk : Lookup) :
    Except String (List (MKey × MatchEntry)) :=
  match scans with
  | [] => .ok []
  | (n, d, e) :: rest =>
    if n = "" ∨ d = "" ∨ e = "" then extractAllMatchLoop ratio rest lk
    else
      match callCreateNameVariations n ["assume_surname_first"] with
      | .error err => .error err
      | .ok vars =>
        let vl := vars.sort (· ≤ ·)
        let m :=
          match tryExact vl d (pyUpper e) lk with
          | some p => some p
          | none =>
            match tryNameDob vl d lk with
            | some p => some p
            | none =>
              match (if d ≠ "" then tryFuzzyName ratio vl d lk else none) with
              | some p => some p
              | none => if d ≠ "" then tryFuzzyDob ratio vl d lk else none
        match m with
        | none => extractAllMatchLoop ratio rest lk
        | some p => (extractAllMatchLoop ratio rest lk).map (p :: ·)

/-! ### Audit report writes (`data_audit.py`) -/

/-- One training-table row as the audit reads it back (only the columns
the audit consults). -/
structure TrainRow where
  xml_file : String
  name : String
  eye : String
  lens_size : Option ℚ
  vault : Option ℚ
deriving DecidableEq

/-- The audit's view of the world: the scan directory listing, the
matched table if its file exists, and the training table if its file
exists. -/
structure AuditInput where
  xmlFiles : List String
  matched : Option (List String)
  training : Option (List TrainRow)
deriving DecidableEq

/-- Rows of the training table missing an outcome
(`df_train['Lens_Size'].isna() | df_train['Vault'].isna()`). -/
def missingOutcomes (rows : List TrainRow) : List TrainRow :=
  rows.filter (fun r => r.lens_size.isNone || r.vault.isNone)

/-- The files `audit()` writes (`data_audit.py` lines 107–204), in
order: the missing-ID, non-standard-filename and duplicate-ID reports
unconditionally; the unmatched report whenever the matched table was
found; the failed-extraction report whenever the training table was
found; and the missing-outcomes report only when it has at least one
row (line 201: `if missing_outcomes > 0`). -/
def auditWrites (inp : AuditInput) : List String :=
  ["data/processed/missing_xml_ids.csv",
   "data/processed/nonstandard_xml_filenames.csv",
   "data/processed/duplicate_xml_ids.csv"]
  ++ (match inp.matched with
      | some _ => ["data/processed/unmatched_xmls.csv"]
      | none => [])
  ++ (match inp.training with
      | some rows =>
        ["data/processed/failed_extractions.csv"]
        ++ (if (missingOutcomes rows).length > 0
            then ["data/processed/missing_outcomes.csv"] else [])
      | none => [])

/-- The file `match_xml_to_csv` writes (lines 525–563): the matched
table is saved only when at least one match was found; the unmatched
set is only printed, never written. -/
def matchXmlToCsvWrites (matchedResults : List (MKey × MatchEntry)) : List String :=
  if matchedResults.isEmpty then [] else ["data/processed/matched_patients.csv"]

/-- The file `extract_all_features` writes (lines 510–544): the
training table is saved only when at least one row was extracted
(line 513 returns first when the frame is empty). -/
def extractAllFeaturesWrites (rows : List (MKey × MatchEntry)) : List String :=
  if rows.isEmpty then [] else ["data/processed/training_data.csv"]

/-! ### Missing-ID analysis (`data_audit.py` lines 54–109) -/

/-- Length 8 and all digits: the standard-filename stem test
(`re.fullmatch(r"\d{8}", stem)`). -/
def isStandardStem (s : String) : Bool :=
  s.length = 8 && s.toList.all Char.isDigit

/-- The `numeric_ids` list of `analyze_xml_filenames`: integer values
of the standard 8-digit stems, in listing order. -/
def numericIds (files : List String) : List Nat :=
  files.filterMap (fun f =>
    let st := splitextStem f
    if isStandardStem st then some (parseNatL st.toList) else none)

/-- Python `sorted(set(range(min_num, max_num + 1)) - set(numeric_ids))`
(lines 85–92): ascending by construction of the range. -/
def missingIdList (files : List String) : List Nat :=
  match numericIds files with
  | [] => []
  | a :: rest =>
    let mn := rest.foldl min a
    let mx := rest.foldl max a
    (List.range' mn (mx + 1 - mn)).filter (fun n => !(a :: rest).contains n)

/-- The `XML_ID` column written to `missing_xml_ids.csv` (lines
108–109), each ID rendered as `f"{num:08d}"`. -/
def missingIdRows (files : List String) : List String :=
  (missingIdList files).map (padNat 8)

/-! ### Concrete instances used in the claim theorems and witnesses -/

/-- A scan whose only populated feature is a below-range `WTW` of 9. -/
def scanWtw9 : RawScan :=
  { age := .vnone, wtw := .vstr "9", acd_internal := .vnone, acv := .vnone,
    aca_global := .vnone, pupil_diameter := .vnone, tcrp_km := .vnone,
    tcrp_astigmatism := .vnone, simk_steep := .vnone, cct := .vnone, bad_d := .vnone }

/-- A scan with `ACV = 200` but `ACD (Int.) = 0`. -/
def scanAcdZero : RawScan :=
  { age := .vnone, wtw := .vnone, acd_internal := .vstr "0", acv := .vstr "200",
    aca_global := .vnone, pupil_diameter := .vnone, tcrp_km := .vnone,
    tcrp_astigmatism := .vnone, simk_steep := .vnone, cct := .vnone, bad_d := .vnone }

/-- An exchanged roster row with original size 12 / vault 500, exchanged
size 13 / vault 650. -/
def rowExchA : RosterRow :=
  { name := "Smith Anna", dob := "1990-01-01", eye := "OD", exchangeFlag := "YES",
    icl_size := .vnum 12, vault := .vnum 500, exch_size := .vnum 13,
    exch_vault := .vnum 650, sphere := .vnone, cyl := .vnone,
    icl_power := .vnone, exch_power := .vnone, dos := .vnone, target := .vnone }

/-- Identical to `rowExchA` except for the original (pre-exchange) ICL
size. -/
def rowExchB : RosterRow := { rowExchA with icl_size := .vnum 14 }

/-- An audit state whose single training row has both outcomes present,
so the missing-outcomes table is empty. -/
def auditInputNoMissing : AuditInput :=
  { xmlFiles := ["00000001.xml"],
    matched := some ["00000001.xml"],
    training := some [{ xml_file := "00000001.xml", name := "Smith Anna",
                        eye := "OD", lens_size := some 13, vault := some 650 }] }

/-- A roster entry for the matcher witness. -/
def entrySmith : MatchEntry :=
  { name := "Smith Anna", dob := "1990-01-01", eye := "OD",
    lens_size := .vnum 13, vault := .vnum 650, exchange := false,
    original_lens_size := .vnum 13, original_vault := .vnum 650,
    exchanged_lens_size := .vnone, exchanged_vault := .vnone,
    dos := .vnone, target := .vnone, icl_power := .vnone }

/-- A one-entry lookup for the matcher witness. -/
def lookupSmith : Lookup := [(⟨"Smith Anna", "1990-01-01", "OD"⟩, entrySmith)]

/-- A constant similarity function standing in for
`difflib.SequenceMatcher(...).ratio()` in witnesses. -/
def ratioZero : String → String → ℚ := fun _ _ => 0

/-- The side conditions under which a two-token name has no suffix,
hyphen-spacing, or spelling-table structure for `create_name_variations`
to act on: the two tokens survive normalization verbatim, no
spelling-table key occurs as a substring of either token order, and
neither token is a suffix token or a spelling-table key. -/
def PlainTokenPair (a b : String) : Prop :=
  splitWs (a ++ " " ++ b) = [a, b]
  ∧ splitWs (b ++ " " ++ a) = [b, a]
  ∧ pyReplace (pyReplace (a ++ " " ++ b) "- " "-") " -" "-" = a ++ " " ++ b
  ∧ pyReplace (pyReplace (b ++ " " ++ a) "- " "-") " -" "-" = b ++ " " ++ a
  ∧ pyTitle (a ++ " " ++ b) = a ++ " " ++ b
  ∧ pyTitle (b ++ " " ++ a) = b ++ " " ++ a
  ∧ pyStrip (a ++ " " ++ b) = a ++ " " ++ b
  ∧ pyStrip (b ++ " " ++ a) = b ++ " " ++ a
  ∧ (∀ kv ∈ spellingVariations, pyIn kv.1 (a ++ " " ++ b) = false)
  ∧ (∀ kv ∈ spellingVariations, pyIn kv.1 (b ++ " " ++ a) = false)
  ∧ suffixList.contains a = false
  ∧ suffixList.contains b = false
  ∧ (suffixList.map pyUpper).contains (pyUpper a) = false
  ∧ (suffixList.map pyUpper).contains (pyUpper b) = false
  ∧ spellingVariations.find? (fun kv => kv.1 == a) = none
  ∧ spellingVariations.find? (fun kv => kv.1 == b) = none

instance (a b : String) : Decidable (PlainTokenPair a b) := by
  unfold PlainTokenPair; infer_instance

/-! ## Theorems -/

/-! ### C5 — `validate_value` behavior -/

/-- C5: `validate_value(-9999, "WTW")` is invalid with a null cleaned
value and a warning; `validate_value(11.8, "WTW")` is valid with
cleaned `11.8` and no warning; `validate_value(9.0, "WTW")` is invalid
with a warning but retains the numeric 9.0 as the cleaned value; and in
general conversion failures and NaN sentinels yield a null cleaned
value while out-of-range numerics retain the raw value alongside a
warning. -/
theorem C5_validate_value_behavior :
    validate_value (.vnum (-9999)) "WTW" = (false, none, some (.sentinel "WTW"))
    ∧ validate_value (.vnum (11.8 : ℚ)) "WTW" = (true, some (11.8 : ℚ), none)
    ∧ validate_value (.vnum 9) "WTW" = (false, some 9, some (.outOfRange "WTW" 9 10 14))
    ∧ (∀ p feat, pyFloat p = none →
        validate_value p feat = (false, none, some (.nonNumeric feat)))
    ∧ (∀ p feat, pyFloat p = some none →
        validate_value p feat = (false, none, some (.missing feat)))
    ∧ (∀ feat v lo hi, rangeFor feat = some (lo, hi) → v ≠ -9999 →
        v < lo ∨ v > hi →
        validate_value (.vnum v) feat = (false, some v, some (.outOfRange feat v lo hi))) := by
  refine ⟨by decide, ?_, by decide, ?_, ?_, ?_⟩
  · have hr : rangeFor "WTW" = some (10, 14) := by decide
    simp only [validate_value, pyFloat, hr]
    norm_num
  · intro p feat h
    simp only [validate_value, h]
  · intro p feat h
    simp only [validate_value, h]
  · intro feat v lo hi hr hv hrange
    simp only [validate_value, pyFloat, hr, if_neg hv, if_pos hrange]

/-- Witness for C5: the general out-of-range conjunct applied at
`WTW = 9`. -/
theorem C5_witness :
    validate_value (.vnum 9) "WTW" = (false, some 9, some (.outOfRange "WTW" 9 10 14)) :=
  C5_validate_value_behavior.2.2.2.2.2 "WTW" 9 10 14 (by decide) (by decide) (by decide)

/-! ### C4 — what happens to a range-failing feature -/

/-- Counterexample to C4 as stated: a scan whose `WTW` is 9 (below the
clinical range `[10, 14]`) ends with `WTW` *retained* as 9 — not null —
while the warning is appended. -/
theorem C4_counterexample :
    (validateScan scanWtw9).wtw = some 9
    ∧ (validateScan scanWtw9).wtw ≠ none
    ∧ Warning.outOfRange "WTW" 9 10 14 ∈ (validateScan scanWtw9).validation_warnings := by
  refine ⟨by decide, by decide, by decide⟩

/-- C4 (amended): when a feature's numeric value fails its clinical
range check, a warning is appended to `validation_warnings` but the
field keeps the raw numeric value (it is *not* nulled); null cleaned
values arise only from sentinel/non-numeric/NaN inputs. Stated for the
per-field validation step in general and for the `WTW` field of the
full record. -/
theorem C4_range_failure_retains_value :
    (∀ p feat v lo hi, rangeFor feat = some (lo, hi) →
      pyFloat p = some (some v) → v ≠ -9999 → v < lo ∨ v > hi →
      valStep p feat = (some v, some (.outOfRange feat v lo hi)))
    ∧ (∀ r v, pyFloat r.wtw = some (some v) → v ≠ -9999 → v < 10 ∨ v > 14 →
        (validateScan r).wtw = some v
        ∧ Warning.outOfRange "WTW" v 10 14 ∈ (validateScan r).validation_warnings) := by
  have hstep : ∀ p feat v lo hi, rangeFor feat = some (lo, hi) →
      pyFloat p = some (some v) → v ≠ -9999 → v < lo ∨ v > hi →
      valStep p feat = (some v, some (.outOfRange feat v lo hi)) := by
    intro p feat v lo hi hr hf hv hrange
    have hval : validate_value p feat = (false, some v, some (.outOfRange feat v lo hi)) := by
      simp only [validate_value, hf, hr, if_neg hv, if_pos hrange]
    cases p with
    | vnone => simp [pyFloat] at hf
    | vnan => simp [pyFloat] at hf
    | vstr s => simp only [valStep, hval]
    | vnum q => simp only [valStep, hval]
  refine ⟨hstep, ?_⟩
  intro r v hf hv hrange
  have hw : valStep r.wtw "WTW" = (some v, some (.outOfRange "WTW" v 10 14)) :=
    hstep r.wtw "WTW" v 10 14 (by decide) hf hv hrange
  constructor
  · simp only [validateScan, hw]
  · simp only [validateScan, hw]
    refine List.mem_append_left _ (List.mem_filterMap.mpr ⟨some (.outOfRange "WTW" v 10 14), ?_, rfl⟩)
    simp

/-- Witness for C4 (amended): the record-level conjunct applied to the
concrete scan with `WTW = 9`. -/
theorem C4_witness :
    (validateScan scanWtw9).wtw = some 9
    ∧ Warning.outOfRange "WTW" 9 10 14 ∈ (validateScan scanWtw9).validation_warnings :=
  C4_range_failure_retains_value.2 scanWtw9 9 (by decide) (by decide) (by decide)

/-! ### C8 — `AC_shape_ratio` guards -/

/-- C8: `AC_shape_ratio` is null whenever `ACD_internal` is null (or
missing) or non-positive or `ACV` is null; the division is performed
only with `ACD_internal > 0` (so no division-by-zero path exists); and
any computed ratio passed its own range validation — whenever the field
holds a value, that value is `ACV / ACD_internal` with a positive
denominator and lies within the clinical range `[40, 200]`. -/
theorem C8_ac_shape_ratio_guarded (r : RawScan) :
    ((validateScan r).acd_internal = none ∨ (validateScan r).acv = none
      ∨ (∃ c, (validateScan r).acd_internal = some c ∧ c ≤ 0) →
      (validateScan r).ac_shape_ratio = none)
    ∧ (∀ q, (validateScan r).ac_shape_ratio = some q →
        ∃ a c, (validateScan r).acv = some a ∧ (validateScan r).acd_internal = some c
          ∧ 0 < c ∧ q = a / c ∧ 40 ≤ q ∧ q ≤ 200) := by
  have hr : rangeFor "AC_shape_ratio" = some (40, 200) := by decide
  simp only [validateScan]
  set av := valStep (r.acv) "ACV" with hav
  set ai := valStep (r.acd_internal) "ACD_internal" with hai
  constructor
  · intro h
    rcases hv : av.1 with _ | aq
    · simp [hv]
    rcases hi : ai.1 with _ | cq
    · simp [hv, hi]
    · simp only [hv, hi] at h ⊢
      rcases h with h | h | ⟨c, hc, hcle⟩
      · exact absurd h (by simp)
      · exact absurd h (by simp)
      · have : cq = c := by injection hc
        subst this
        rw [if_neg (by exact absurd · (not_lt.mpr hcle))]
  · intro q hq
    rcases hv : av.1 with _ | aq
    · simp [hv] at hq
    rcases hi : ai.1 with _ | cq
    · simp [hv, hi] at hq
    simp only [hv, hi] at hq
    by_cases hpos : cq > 0
    · rw [if_pos hpos] at hq
      by_cases hsent : aq / cq = -9999
      · simp only [validate_value, pyFloat, if_pos hsent] at hq
        simp at hq
      · simp only [validate_value, pyFloat, hr, if_neg hsent] at hq
        by_cases hrange : aq / cq < 40 ∨ aq / cq > 200
        · rw [if_pos hrange] at hq
          simp at hq
        · rw [if_neg hrange] at hq
          push_neg at hrange
          simp at hq
          exact ⟨aq, cq, rfl, rfl, hpos, hq.symm, hq ▸ hrange.1, hq ▸ hrange.2⟩
    · rw [if_neg hpos] at hq
      simp at hq

/-- Witness for C8: the guard applied to the concrete scan with
`ACD_internal = 0`. -/
theorem C8_witness : (validateScan scanAcdZero).ac_shape_ratio = none :=
  (C8_ac_shape_ratio_guarded scanAcdZero).1
    (Or.inr (Or.inr ⟨0, by decide, by decide⟩))

/-! ### C6 — exchange-aware outcome selection -/

/-- Counterexample to C6 as stated: the training-side index entry
(`load_csv_with_seq`) does *not* retain the original values in audit
fields — two exchanged rows differing only in the original ICL size
produce identical index entries, so the original value is not recorded
anywhere in them. (The match-side `load_csv_data` entry does retain
it.) -/
theorem C6_counterexample :
    isExchange rowExchA = true
    ∧ isExchange rowExchB = true
    ∧ rowExchA.icl_size ≠ rowExchB.icl_size
    ∧ loadCsvWithSeqEntry rowExchA = loadCsvWithSeqEntry rowExchB := by
  refine ⟨by decide, by decide, by decide, by decide⟩

/-- C6 (amended): for every roster row with `exchange = true`, both
index builders store the exchanged size/vault (NaN-defaulted) as the
outcome — never the original `ICL Size`/`Vault` cells; the matching
index (`load_csv_data`) additionally retains the original and exchanged
cells verbatim in separate audit fields, while the training index
(`load_csv_with_seq`) retains no original values. -/
theorem C6_exchange_supersedes (row : RosterRow) (hx : isExchange row = true) :
    (∀ e, loadCsvDataEntry row = .ok e →
      e.lens_size = notnaOrEmpty row.exch_size
      ∧ e.vault = notnaOrEmpty row.exch_vault
      ∧ e.exchange = true
      ∧ e.original_lens_size = row.icl_size
      ∧ e.original_vault = row.vault
      ∧ e.exchanged_lens_size = row.exch_size
      ∧ e.exchanged_vault = row.exch_vault)
    ∧ (∀ s, loadCsvWithSeqEntry row = .ok s →
        s.lens_size = notnaOrNone row.exch_size
        ∧ s.vault = notnaOrNone row.exch_vault
        ∧ s.exchange = true) := by
  constructor
  · intro e he
    simp only [loadCsvDataEntry, hx, if_true, bind, Except.bind] at he
    repeat' split at he
    all_goals first
      | exact Except.noConfusion he
      | (simp only [Except.ok.injEq] at he; subst he
         exact ⟨rfl, rfl, rfl, rfl, rfl, rfl, rfl⟩)
  · intro s hs
    simp only [loadCsvWithSeqEntry, hx, if_true, bind, Except.bind] at hs
    repeat' split at hs
    all_goals first
      | exact Except.noConfusion hs
      | (simp only [Except.ok.injEq] at hs; subst hs
         exact ⟨rfl, rfl, rfl⟩)

/-- Witness for C6 (amended): applied to the concrete exchanged row and
its computed entry. -/
theorem C6_witness :
    ({ name := "Smith Anna", dob := "1990-01-01", eye := "OD",
       lens_size := some (.vnum 13), vault := some (.vnum 650),
       exchange := true, seq := none, icl_power := none } : SeqEntry).lens_size
        = notnaOrNone rowExchA.exch_size
    ∧ ({ name := "Smith Anna", dob := "1990-01-01", eye := "OD",
         lens_size := some (.vnum 13), vault := some (.vnum 650),
         exchange := true, seq := none, icl_power := none } : SeqEntry).vault
        = notnaOrNone rowExchA.exch_vault
    ∧ ({ name := "Smith Anna", dob := "1990-01-01", eye := "OD",
         lens_size := some (.vnum 13), vault := some (.vnum 650),
         exchange := true, seq := none, icl_power := none } : SeqEntry).exchange = true :=
  (C6_exchange_supersedes rowExchA (by decide)).2 _ (by decide)

/-! ### C2 — which outputs are materialized when empty -/

/-- Counterexample to C2 as stated: with every training row carrying
both outcomes, the audit does not write `missing_outcomes.csv`; with no
matched rows, `match_xml_to_csv` writes no matched table at all; with
no extracted rows, `extract_all_features` writes no training table. -/
theorem C2_counterexample :
    "data/processed/missing_outcomes.csv" ∉ auditWrites auditInputNoMissing
    ∧ matchXmlToCsvWrites [] = []
    ∧ extractAllFeaturesWrites [] = [] := by
  refine ⟨by decide, by decide, by decide⟩

/-- C2 (amended): the audit's missing-IDs, non-standard-filename and
duplicate-ID reports are written unconditionally (even empty); the
unmatched and failed-extraction reports are written (even empty)
whenever their input tables exist; but the missing-outcomes report is
written only when it has at least one row, and the matched-patients
table is written only when at least one match was found. -/
theorem C2_report_writes (inp : AuditInput) :
    ("data/processed/missing_xml_ids.csv" ∈ auditWrites inp
      ∧ "data/processed/nonstandard_xml_filenames.csv" ∈ auditWrites inp
      ∧ "data/processed/duplicate_xml_ids.csv" ∈ auditWrites inp)
    ∧ (∀ m, inp.matched = some m →
        "data/processed/unmatched_xmls.csv" ∈ auditWrites inp)
    ∧ (∀ rows, inp.training = some rows →
        "data/processed/failed_extractions.csv" ∈ auditWrites inp)
    ∧ (∀ rows, inp.training = some rows → missingOutcomes rows = [] →
        "data/processed/missing_outcomes.csv" ∉ auditWrites inp)
    ∧ (∀ rows, inp.training = some rows → (missingOutcomes rows).length > 0 →
        "data/processed/missing_outcomes.csv" ∈ auditWrites inp)
    ∧ (∀ res : List (MKey × MatchEntry), res ≠ [] →
        matchXmlToCsvWrites res = ["data/processed/matched_patients.csv"]) := by
  refine ⟨⟨?_, ?_, ?_⟩, ?_, ?_, ?_, ?_, ?_⟩
  · simp [auditWrites]
  · simp [auditWrites]
  · simp [auditWrites]
  · intro m hm
    simp [auditWrites, hm]
  · intro rows hr
    simp [auditWrites, hr]
  · intro rows hr hempty
    simp [auditWrites, hr, hempty]
    rcases inp.matched with _ | m <;> simp
  · intro rows hr hpos
    simp [auditWrites, hr, hpos]
  · intro res hres
    simp [matchXmlToCsvWrites, hres]

/-- Witness for C2 (amended): the unmatched report is written for the
concrete audit input whose matched table exists. -/
theorem C2_witness :
    "data/processed/unmatched_xmls.csv" ∈ auditWrites auditInputNoMissing :=
  (C2_report_writes auditInputNoMissing).2.1 ["00000001.xml"] rfl

/-! ### C9 — the missing-ID report -/

theorem foldl_min_le_iff (l : List ℕ) :
    ∀ a n : ℕ, l.foldl min a ≤ n ↔ a ≤ n ∨ ∃ x ∈ l, x ≤ n := by
  induction l with
  | nil => simp
  | cons b t ih =>
    intro a n
    rw [List.foldl_cons, ih]
    simp only [min_le_iff, List.mem_cons]
    constructor
    · rintro ((h | h) | ⟨x, hx, hle⟩)
      · exact Or.inl h
      · exact Or.inr ⟨b, Or.inl rfl, h⟩
      · exact Or.inr ⟨x, Or.inr hx, hle⟩
    · rintro (h | ⟨x, (rfl | hx), hle⟩)
      · exact Or.inl (Or.inl h)
      · exact Or.inl (Or.inr hle)
      · exact Or.inr ⟨x, hx, hle⟩

theorem le_foldl_max_iff (l : List ℕ) :
    ∀ a n : ℕ, n ≤ l.foldl max a ↔ n ≤ a ∨ ∃ x ∈ l, n ≤ x := by
  induction l with
  | nil => simp
  | cons b t ih =>
    intro a n
    rw [List.foldl_cons, ih]
    simp only [le_max_iff, List.mem_cons]
    constructor
    · rintro ((h | h) | ⟨x, hx, hle⟩)
      · exact Or.inl h
      · exact Or.inr ⟨b, Or.inl rfl, h⟩
      · exact Or.inr ⟨x, Or.inr hx, hle⟩
    · rintro (h | ⟨x, (rfl | hx), hle⟩)
      · exact Or.inl (Or.inl h)
      · exact Or.inl (Or.inr hle)
      · exact Or.inr ⟨x, hx, hle⟩

/-- C9: membership in the missing-ID report is exactly "within the
closed range spanned by the standard 8-digit-stem IDs but not present
among them"; the concrete gap scenario with files for IDs 1, 2, 4, 5
reports exactly `{3}`; and non-standard filenames contribute nothing to
the computation. -/
theorem C9_missing_id_report :
    (∀ files n, n ∈ missingIdList files ↔
      ((∃ i ∈ numericIds files, i ≤ n) ∧ (∃ j ∈ numericIds files, n ≤ j)
        ∧ n ∉ numericIds files))
    ∧ missingIdRows ["00000001.xml", "00000002.xml", "00000004.xml", "00000005.xml"]
        = ["00000003"]
    ∧ (∀ files f, isStandardStem (splitextStem f) = false →
        missingIdList (f :: files) = missingIdList files) := by
  refine ⟨?_, by decide, ?_⟩
  · intro files n
    unfold missingIdList
    rcases h : numericIds files with _ | ⟨a, rest⟩
    · simp
    · have hmn : rest.foldl min a ≤ a := (foldl_min_le_iff rest a a).mpr (Or.inl le_rfl)
      have hmx : a ≤ rest.foldl max a := (le_foldl_max_iff rest a a).mpr (Or.inl le_rfl)
      have hrange : rest.foldl min a + (rest.foldl max a + 1 - rest.foldl min a)
          = rest.foldl max a + 1 := by omega
      simp only [List.mem_filter, List.mem_range'_1, hrange]
      constructor
      · rintro ⟨⟨h1, h2⟩, h3⟩
        refine ⟨(foldl_min_le_iff rest a n).mp h1 |>.elim
            (fun hh => ⟨a, List.mem_cons_self a rest, hh⟩)
            (fun ⟨x, hx, hle⟩ => ⟨x, List.mem_cons_of_mem a hx, hle⟩),
          (le_foldl_max_iff rest a n).mp (by omega) |>.elim
            (fun hh => ⟨a, List.mem_cons_self a rest, hh⟩)
            (fun ⟨x, hx, hle⟩ => ⟨x, List.mem_cons_of_mem a hx, hle⟩), ?_⟩
        intro hmem
        have h3' : ¬n = a ∧ n ∉ rest := by simpa using h3
        rcases List.mem_cons.mp hmem with heq | hm
        · exact h3'.1 heq
        · exact h3'.2 hm
      · rintro ⟨⟨i, hi, hile⟩, ⟨j, hj, hjle⟩, hnmem⟩
        refine ⟨⟨?_, ?_⟩, ?_⟩
        · rcases List.mem_cons.mp hi with rfl | hi'
          · exact (foldl_min_le_iff rest i n).mpr (Or.inl hile)
          · exact (foldl_min_le_iff rest a n).mpr (Or.inr ⟨i, hi', hile⟩)
        · have : n ≤ rest.foldl max a := by
            rcases List.mem_cons.mp hj with rfl | hj'
            · exact (le_foldl_max_iff rest j n).mpr (Or.inl hjle)
            · exact (le_foldl_max_iff rest a n).mpr (Or.inr ⟨j, hj', hjle⟩)
          omega
        · simp only [Bool.not_eq_true', ← Bool.not_eq_true, List.elem_iff]
          simpa using hnmem
  · intro files f hf
    have hnum : numericIds (f :: files) = numericIds files := by
      simp [numericIds, hf]
    unfold missingIdList
    rw [hnum]

/-- Witness for C9: the non-contribution conjunct applied to a
non-standard filename in front of a standard one. -/
theorem C9_witness :
    missingIdList ["0003.xml", "00000001.xml"] = missingIdList ["00000001.xml"] :=
  C9_missing_id_report.2.2 ["00000001.xml"] "0003.xml" (by decide)

/-! ### C1 — the `assume_surname_first` keyword call -/

/-- Counterexample to C1 as stated: a scan with a non-empty extracted
name but an empty DOB is skipped by the completeness guard *before* the
keyworded `create_name_variations` call, so no `TypeError` is raised
for it. -/
theorem C1_counterexample :
    "Smith Anna" ≠ ""
    ∧ mergeWithCsvMatch "Smith Anna" "" "OD" [] = .ok none := by
  refine ⟨by decide, by decide⟩

/-- C1 (amended): for every scan whose extracted name, DOB *and* eye
are all non-empty, the matching step of `merge_with_csv` and
`extract_all_features` raises `TypeError` (the imported
`create_name_variations` does not accept the `assume_surname_first`
keyword); scans with incomplete identity are skipped before the call;
consequently no training-table row is ever produced by this path. -/
theorem C1_keyword_call_type_error :
    (∀ name dob eye lk, name ≠ "" → dob ≠ "" → eye ≠ "" →
      mergeWithCsvMatch name dob eye lk = .error "TypeError")
    ∧ (∀ ratio scans lk rows,
        extractAllMatchLoop ratio scans lk = .ok rows → rows = [])
    ∧ (∀ ratio scans lk n d e, (n, d, e) ∈ scans → n ≠ "" → d ≠ "" → e ≠ "" →
        extractAllMatchLoop ratio scans lk = .error "TypeError") := by
  refine ⟨?_, ?_, ?_⟩
  · intro name dob eye lk hn hd he
    simp [mergeWithCsvMatch, callCreateNameVariations, hn, hd, he]
  · intro ratio scans lk
    induction scans with
    | nil =>
      intro rows h
      simp only [extractAllMatchLoop, Except.ok.injEq] at h
      exact h.symm
    | cons hd tl ih =>
      obtain ⟨n, d, e⟩ := hd
      intro rows h
      simp only [extractAllMatchLoop] at h
      split at h
      · exact ih rows h
      · simp [callCreateNameVariations] at h
  · intro ratio scans lk n d e hmem hn hd he
    induction scans with
    | nil => cases hmem
    | cons hd' tl ih =>
      obtain ⟨n', d', e'⟩ := hd'
      simp only [extractAllMatchLoop]
      split
      · rcases List.mem_cons.mp hmem with heq | hm
        · injection heq with h1 h2
          injection h2 with h2 h3
          subst h1; subst h2; subst h3
          rename_i hcond
          rcases hcond with hc | hc | hc
          · exact absurd hc hn
          · exact absurd hc hd
          · exact absurd hc he
        · exact ih hm
      · simp [callCreateNameVariations]

/-- Witness for C1 (amended): a complete identity hits the
`TypeError`. -/
theorem C1_witness :
    mergeWithCsvMatch "Smith Anna" "1990-01-01" "OD" [] = .error "TypeError" :=
  C1_keyword_call_type_error.1 "Smith Anna" "1990-01-01" "OD" []
    (by decide) (by decide) (by decide)

/-! ### C7 — exact-match priority in the cascade -/

theorem tryExact_spec (variations : List String) (dob eye : String) (lk : Lookup)
    (h : ∃ v ∈ variations, (lookupFind lk ⟨v, dob, eye⟩).isSome = true) :
    ∃ v e, v ∈ variations ∧ lookupFind lk ⟨v, dob, eye⟩ = some e
      ∧ tryExact variations dob eye lk = some (⟨v, dob, eye⟩, e) := by
  induction variations with
  | nil => simp at h
  | cons v rest ih =>
    rcases hl : lookupFind lk ⟨v, dob, eye⟩ with _ | e
    · obtain ⟨x, hx, hsome⟩ := h
      rcases List.mem_cons.mp hx with rfl | hx'
      · rw [hl] at hsome; simp at hsome
      · obtain ⟨v', e', hm, hf, ht⟩ := ih ⟨x, hx', hsome⟩
        exact ⟨v', e', List.mem_cons_of_mem v hm, hf, by
          simp only [tryExact, hl]; exact ht⟩
    · exact ⟨v, e, List.mem_cons_self v rest, hl, by simp only [tryExact, hl]⟩

/-- C7: whenever any generated name variant forms an exact
`(variant, dob, eye)` key present in the lookup, the cascade's result
is that exact match, tagged with strategy `exact` — no lower-priority
strategy determines the outcome. -/
theorem C7_exact_priority (ratio : String → String → ℚ)
    (variations : List String) (dob eye : String) (lk : Lookup)
    (h : ∃ v ∈ variations, (lookupFind lk ⟨v, dob, eye⟩).isSome = true) :
    ∃ v e, v ∈ variations ∧ lookupFind lk ⟨v, dob, eye⟩ = some e
      ∧ matchScan ratio variations dob eye lk = some ⟨⟨v, dob, eye⟩, e, .exact⟩ := by
  obtain ⟨v, e, hm, hf, ht⟩ := tryExact_spec variations dob eye lk h
  exact ⟨v, e, hm, hf, by simp only [matchScan, ht]⟩

/-- Witness for C7: a one-entry lookup and a one-variant list. -/
theorem C7_witness :
    matchScan ratioZero ["Smith Anna"] "1990-01-01" "OD" lookupSmith
      = some ⟨⟨"Smith Anna", "1990-01-01", "OD"⟩, entrySmith, .exact⟩ := by
  obtain ⟨v, e, hv, hf, hm⟩ :=
    C7_exact_priority ratioZero ["Smith Anna"] "1990-01-01" "OD" lookupSmith (by decide)
  have hveq : v = "Smith Anna" := by simpa using hv
  subst hveq
  have hl : lookupFind lookupSmith ⟨"Smith Anna", "1990-01-01", "OD"⟩
      = some entrySmith := by decide
  rw [hl] at hf
  injection hf with hf
  subst hf
  exact hm

/-! ### C3 — `normalize_dob` error/fallback behavior -/

theorem toList_mk (l : List Char) : (String.mk l).toList = l := rfl

theorem mk_ne_empty (l : List Char) (h : l ≠ []) : String.mk l ≠ "" := by
  intro he
  exact h (congrArg String.data he)

theorem toList_eq_nil_iff (s : String) : s.toList = [] ↔ s = "" := by
  constructor
  · intro h
    exact congrArg String.mk h
  · intro h
    rw [h]
    rfl

theorem splitWsAux_nil_nil (acc : List String) : splitWsAux [] [] acc = acc.reverse := rfl

theorem splitWsAux_nil_cons (x : Char) (xs : List Char) (acc : List String) :
    splitWsAux [] (x :: xs) acc = (String.mk (x :: xs).reverse :: acc).reverse := rfl

theorem splitWsAux_cons (c : Char) (cs cur : List Char) (acc : List String) :
    splitWsAux (c :: cs) cur acc =
      if isWsChar c then
        (match cur with
          | [] => splitWsAux cs [] acc
          | x :: xs => splitWsAux cs [] (String.mk (x :: xs).reverse :: acc))
      else splitWsAux cs (c :: cur) acc := rfl

theorem splitWsAux_tokens : ∀ (l cur : List Char) (acc : List String) (t : String),
    (∀ c ∈ cur, isWsChar c = false) →
    (∀ t' ∈ acc, t' ≠ "" ∧ ∀ c ∈ t'.toList, isWsChar c = false) →
    t ∈ splitWsAux l cur acc →
    t ≠ "" ∧ ∀ c ∈ t.toList, isWsChar c = false := by
  intro l
  induction l with
  | nil =>
    intro cur acc t hcur hacc hmem
    cases cur with
    | nil =>
      rw [splitWsAux_nil_nil] at hmem
      exact hacc t (List.mem_reverse.mp hmem)
    | cons x xs =>
      rw [splitWsAux_nil_cons, List.mem_reverse] at hmem
      rcases List.mem_cons.mp hmem with rfl | hmem2
      · refine ⟨mk_ne_empty _ (by simp), ?_⟩
        intro y hy
        rw [toList_mk] at hy
        exact hcur y (List.mem_reverse.mp hy)
      · exact hacc t hmem2
  | cons c cs ih =>
    intro cur acc t hcur hacc hmem
    rw [splitWsAux_cons] at hmem
    by_cases hws : isWsChar c = true
    · rw [if_pos hws] at hmem
      cases cur with
      | nil => exact ih [] acc t (by simp) hacc hmem
      | cons x xs =>
        refine ih [] _ t (by simp) ?_ hmem
        intro t2 ht2
        rcases List.mem_cons.mp ht2 with rfl | ht3
        · refine ⟨mk_ne_empty _ (by simp), ?_⟩
          intro y hy
          rw [toList_mk] at hy
          exact hcur y (List.mem_reverse.mp hy)
        · exact hacc t2 ht3
    · rw [if_neg hws] at hmem
      refine ih (c :: cur) acc t ?_ hacc hmem
      intro y hy
      rcases List.mem_cons.mp hy with rfl | hy2
      · simpa using hws
      · exact hcur y hy2

theorem splitWs_tokens (s t : String) (h : t ∈ splitWs s) :
    t ≠ "" ∧ ∀ c ∈ t.toList, isWsChar c = false :=
  splitWsAux_tokens s.toList [] [] t (by simp) (by simp) h

theorem replaceGo_ne_nil (pat rep : List Char) (hrep : rep ≠ []) :
    ∀ fuel l, l ≠ [] → replaceGo pat rep fuel l ≠ [] := by
  intro fuel
  induction fuel with
  | zero => intro l hl; cases l with
    | nil => exact absurd rfl hl
    | cons c cs => simp [replaceGo]
  | succ n _ =>
    intro l hl
    cases l with
    | nil => exact absurd rfl hl
    | cons c cs =>
      simp only [replaceGo]
      split
      · simp [hrep]
      · simp

theorem replaceGo_noWs (pat rep : List Char)
    (hrep : ∀ c ∈ rep, isWsChar c = false) :
    ∀ fuel l, (∀ c ∈ l, isWsChar c = false) →
      ∀ c ∈ replaceGo pat rep fuel l, isWsChar c = false := by
  intro fuel
  induction fuel with
  | zero =>
    intro l hl c hc
    cases l with
    | nil => simp [replaceGo] at hc
    | cons x xs => exact hl c (by simpa [replaceGo] using hc)
  | succ n ih =>
    intro l hl c hc
    cases l with
    | nil => simp [replaceGo] at hc
    | cons x xs =>
      simp only [replaceGo] at hc
      split at hc
      · rcases List.mem_append.mp hc with h | h
        · exact hrep c h
        · exact ih _ (fun y hy => hl y (List.mem_cons_of_mem _ (List.drop_subset _ _ hy))) c h
      · rcases List.mem_cons.mp hc with rfl | h
        · exact hl c (by simp)
        · exact ih _ (fun y hy => hl y (List.mem_cons_of_mem _ hy)) c h

theorem pyReplace_ne_empty (s pat rep : String) (hrep : rep ≠ "") (hs : s ≠ "") :
    pyReplace s pat rep ≠ "" := by
  intro h
  have hnil : replaceGo pat.toList rep.toList s.toList.length s.toList = [] := by
    have := congrArg String.data h
    simpa [pyReplace] using this
  refine replaceGo_ne_nil pat.toList rep.toList ?_ _ s.toList ?_ hnil
  · intro hl
    exact hrep ((toList_eq_nil_iff rep).mp hl)
  · intro hl
    exact hs ((toList_eq_nil_iff s).mp hl)

theorem pyReplace_noWs (s pat rep : String)
    (hrep : ∀ c ∈ rep.toList, isWsChar c = false)
    (hs : ∀ c ∈ s.toList, isWsChar c = false) :
    ∀ c ∈ (pyReplace s pat rep).toList, isWsChar c = false := by
  intro c hc
  rw [pyReplace, toList_mk] at hc
  exact replaceGo_noWs pat.toList rep.toList hrep _ s.toList hs c hc

theorem dropWhile_noWs (l : List Char) (h : ∀ c ∈ l, isWsChar c = false) :
    l.dropWhile isWsChar = l := by
  cases l with
  | nil => rfl
  | cons c cs =>
    rw [List.dropWhile_cons, if_neg]
    simp [h c (List.mem_cons_self c cs)]

theorem pyStrip_eq_self (s : String) (h : ∀ c ∈ s.toList, isWsChar c = false) :
    pyStrip s = s := by
  unfold pyStrip
  rw [dropWhile_noWs _ h,
    dropWhile_noWs _ (fun c hc => h c (List.mem_reverse.mp hc)),
    List.reverse_reverse]
  rfl

theorem formatPDate_ne_empty (d : PDate) : formatPDate d ≠ "" := by
  intro h
  have hlen := congrArg String.length h
  rw [formatPDate, String.length_append, String.length_append,
    String.length_append, String.length_append] at hlen
  have h1 : ("-" : String).length = 1 := rfl
  have h0 : ("" : String).length = 0 := rfl
  omega

/-- Every successful `normalizeDob` on a non-empty input yields a
non-empty string. -/
theorem normalizeDob_ok_ne_empty (s r : String) (hs : s ≠ "")
    (h : normalizeDob s = .ok r) : r ≠ "" := by
  rw [normalizeDob, if_neg hs] at h
  rcases hsp : splitWs s with _ | ⟨tok, rest⟩
  · rw [hsp] at h
    exact Except.noConfusion h
  · simp only [hsp] at h
    obtain ⟨hne, hnws⟩ := splitWs_tokens s tok (by rw [hsp]; exact List.mem_cons_self tok rest)
    have hT : ∀ T : String, T ≠ "" → (∀ c ∈ T.toList, isWsChar c = false) →
        ((if T.length = 10 ∧ countChar T '-' = 2 then Except.ok T
          else match pdToDatetime T with
            | some d => Except.ok (formatPDate d)
            | none => Except.ok (pyStrip T)) : Except String String) = Except.ok r →
        r ≠ "" := by
      intro T hTne hTnws hh
      split at hh
      · injection hh with hh
        subst hh
        exact hTne
      · rcases hpd : pdToDatetime T with _ | d
        · rw [hpd] at hh
          injection hh with hh
          subst hh
          rw [pyStrip_eq_self T hTnws]
          exact hTne
        · rw [hpd] at hh
          injection hh with hh
          subst hh
          exact formatPDate_ne_empty d
    split at h
    · refine hT _ ?_ ?_ h
      · exact pyReplace_ne_empty _ _ _ (by decide)
          (pyReplace_ne_empty _ _ _ (by decide) hne)
      · exact pyReplace_noWs _ _ _ (by decide)
          (pyReplace_noWs _ _ _ (by decide) hnws)
    · exact hT tok hne hnws h

/-- Counterexample to C3 as stated: `normalize_dob("hello")` — an input
that cannot be parsed as a date at all — returns `"hello"`, not `''`;
and `normalize_dob(" ")` raises `IndexError` instead of never
throwing. -/
theorem C3_counterexample :
    normalizeDob "hello" = .ok "hello"
    ∧ normalizeDob " " = .error "IndexError" := by
  refine ⟨by decide, by decide⟩

/-- C3 (amended): `normalize_dob` returns `''` only for the empty
input; a non-empty all-whitespace input raises `IndexError`; and on an
unparseable first token it falls back to returning that (possibly
year-repaired) token itself, stripped — never `''`. -/
theorem C3_normalize_dob_fallback :
    (∀ s, normalizeDob s = .ok "" → s = "")
    ∧ (∀ s tok rest, s ≠ "" → splitWs s = tok :: rest →
        (pyIn "018" tok || pyIn "/018" tok) = false →
        ¬(tok.length = 10 ∧ countChar tok '-' = 2) →
        pdToDatetime tok = none →
        normalizeDob s = .ok (pyStrip tok))
    ∧ normalizeDob " " = .error "IndexError" := by
  refine ⟨?_, ?_, by decide⟩
  · intro s h
    by_cases hs : s = ""
    · exact hs
    · exact absurd rfl (normalizeDob_ok_ne_empty s "" hs h)
  · intro s tok rest hs hsp hrep hlen hpd
    simp only [normalizeDob, hs, if_false, ite_false, hsp, hrep, Bool.false_eq_true,
      if_neg hlen, hpd]

/-- Witness for C3 (amended): the fallback conjunct applied at
`"hello"`. -/
theorem C3_witness : normalizeDob "hello" = .ok (pyStrip "hello") :=
  C3_normalize_dob_fallback.2.1 "hello" "hello" []
    (by decide) (by decide) (by decide) (by decide) (by decide)

/-! ### C10 — idempotence of `create_name_variations` -/

theorem joinSpace_pair (a b : String) : joinSpace [a, b] = a ++ " " ++ b := rfl

theorem appendMid_ne_empty (a b : String) : a ++ " " ++ b ≠ "" := by
  intro h
  have := congrArg String.length h
  rw [String.length_append, String.length_append] at this
  have h1 : (" " : String).length = 1 := rfl
  have h0 : ("" : String).length = 0 := rfl
  omega

theorem spellFold_id (l : List (String × List String)) :
    ∀ (vars : Finset String) (nm : String), (∀ kv ∈ l, pyIn kv.1 nm = false) →
      l.foldl
        (fun (acc : Finset String × String) kv =>
          if pyIn kv.1 acc.2 then
            (kv.2.foldl (fun v variant => insert (pyReplace acc.2 kv.1 variant) v) acc.1,
             pyReplace acc.2 kv.1 (kv.2.headD acc.2))
          else acc)
        (vars, nm) = (vars, nm) := by
  induction l with
  | nil => intro vars nm _; rfl
  | cons kv t ih =>
    intro vars nm h
    rw [List.foldl_cons]
    have hkv : pyIn kv.1 nm = false := h kv (List.mem_cons_self kv t)
    rw [show (if pyIn kv.1 (vars, nm).2 then
        (kv.2.foldl (fun v variant => insert (pyReplace (vars, nm).2 kv.1 variant) v) (vars, nm).1,
         pyReplace (vars, nm).2 kv.1 (kv.2.headD (vars, nm).2))
      else (vars, nm)) = (vars, nm) from by rw [if_neg (by simp [hkv])]]
    exact ih vars nm (fun kv' h' => h kv' (List.mem_cons_of_mem kv h'))

theorem normalizeName_pair (a b : String)
    (h1 : splitWs (a ++ " " ++ b) = [a, b])
    (h3 : pyReplace (pyReplace (a ++ " " ++ b) "- " "-") " -" "-" = a ++ " " ++ b)
    (h5 : pyTitle (a ++ " " ++ b) = a ++ " " ++ b)
    (h7 : pyStrip (a ++ " " ++ b) = a ++ " " ++ b) :
    normalizeName (a ++ " " ++ b) = a ++ " " ++ b := by
  rw [normalizeName, if_neg (appendMid_ne_empty a b), h1, joinSpace_pair]
  show pyStrip (pyTitle (pyReplace (pyReplace (a ++ " " ++ b) "- " "-") " -" "-")) = _
  rw [h3, h5, h7]

theorem removeNameSuffixes_pair (a b : String)
    (h1 : splitWs (a ++ " " ++ b) = [a, b])
    (ha1 : suffixList.contains a = false)
    (hb1 : suffixList.contains b = false)
    (ha2 : (suffixList.map pyUpper).contains (pyUpper a) = false)
    (hb2 : (suffixList.map pyUpper).contains (pyUpper b) = false) :
    removeNameSuffixes (a ++ " " ++ b) = (a ++ " " ++ b, none) := by
  rw [removeNameSuffixes, h1]
  simp only [List.foldl_cons, List.foldl_nil, ha1, ha2, hb1, hb2, Bool.or_self,
    Bool.false_eq_true, if_false, List.nil_append]
  rw [show ([a] ++ [b] : List String) = [a, b] from rfl, joinSpace_pair]

theorem suffixStage_pair (a b : String)
    (h1 : splitWs (a ++ " " ++ b) = [a, b])
    (ha1 : suffixList.contains a = false)
    (hb1 : suffixList.contains b = false)
    (ha2 : (suffixList.map pyUpper).contains (pyUpper a) = false)
    (hb2 : (suffixList.map pyUpper).contains (pyUpper b) = false) :
    suffixStage (a ++ " " ++ b) = ({a ++ " " ++ b}, a ++ " " ++ b) := by
  have hsuff := removeNameSuffixes_pair a b h1 ha1 hb1 ha2 hb2
  show (match (removeNameSuffixes (a ++ " " ++ b)).2 with
    | some _ => (insert (removeNameSuffixes (a ++ " " ++ b)).1 {a ++ " " ++ b},
        (removeNameSuffixes (a ++ " " ++ b)).1)
    | none => ({a ++ " " ++ b}, a ++ " " ++ b)) = _
  rw [hsuff]

theorem splitStage_pair (a b : String) (vars : Finset String)
    (ha3 : spellingVariations.find? (fun kv => kv.1 == a) = none)
    (hb3 : spellingVariations.find? (fun kv => kv.1 == b) = none) :
    splitStage vars [a, b] = insert (a ++ " " ++ b) (insert (b ++ " " ++ a) vars) := by
  rw [splitStage]
  simp only [List.length_cons, List.length_nil, List.reverse_cons, List.reverse_nil,
    List.nil_append, List.cons_append, List.range_succ, List.range_zero,
    List.foldl_append, List.foldl_cons, List.foldl_nil, List.getD_cons_zero,
    List.getD_cons_succ, ha3, hb3]
  rw [if_pos (by omega), if_neg (by omega)]
  rw [joinSpace_pair, joinSpace_pair]

set_option maxHeartbeats 1000000 in
theorem createNameVariations_pair (a b : String)
    (h1 : splitWs (a ++ " " ++ b) = [a, b])
    (h3 : pyReplace (pyReplace (a ++ " " ++ b) "- " "-") " -" "-" = a ++ " " ++ b)
    (h5 : pyTitle (a ++ " " ++ b) = a ++ " " ++ b)
    (h7 : pyStrip (a ++ " " ++ b) = a ++ " " ++ b)
    (h9 : ∀ kv ∈ spellingVariations, pyIn kv.1 (a ++ " " ++ b) = false)
    (ha1 : suffixList.contains a = false)
    (hb1 : suffixList.contains b = false)
    (ha2 : (suffixList.map pyUpper).contains (pyUpper a) = false)
    (hb2 : (suffixList.map pyUpper).contains (pyUpper b) = false)
    (ha3 : spellingVariations.find? (fun kv => kv.1 == a) = none)
    (hb3 : spellingVariations.find? (fun kv => kv.1 == b) = none) :
    createNameVariations (a ++ " " ++ b) = {a ++ " " ++ b, b ++ " " ++ a} := by
  have hnorm := normalizeName_pair a b h1 h3 h5 h7
  have hspell : spellingStage ({a ++ " " ++ b}, a ++ " " ++ b) = ({a ++ " " ++ b}, a ++ " " ++ b) := by
    rw [spellingStage]
    exact spellFold_id spellingVariations _ _ h9
  rw [createNameVariations]
  rw [if_neg (appendMid_ne_empty a b)]
  rw [hnorm]
  rw [suffixStage_pair a b h1 ha1 hb1 ha2 hb2]
  rw [hspell]
  show splitStage {a ++ " " ++ b} (splitWs (a ++ " " ++ b)) = _
  rw [h1]
  rw [splitStage_pair a b ({a ++ " " ++ b} : Finset String) ha3 hb3]
  ext z
  simp only [Finset.mem_insert, Finset.mem_singleton]
  constructor
  · rintro (h | h | h)
    · exact Or.inl h
    · exact Or.inr h
    · exact Or.inl h
  · rintro (h | h)
    · exact Or.inl h
    · exact Or.inr (Or.inl h)

/-- Counterexample to C10 as stated: `"Jon Jones"` is a plain two-token
name (no suffix, no hyphen, nothing further to split), yet
`create_name_variations` is not idempotent on it: `"Johnes John"` is in
its variation set, and expanding that element produces `"Jones Jon"`,
which the original set does not contain. The substring-based spelling
substitutions are the cause. -/
theorem C10_counterexample :
    "Johnes John" ∈ createNameVariations "Jon Jones"
    ∧ "Jones Jon" ∈ createNameVariations "Johnes John"
    ∧ "Jones Jon" ∉ createNameVariations "Jon Jones" := by
  refine ⟨by decide, by decide, by decide⟩

/-- C10 (amended): `name_variations` is idempotent on two-token names
that carry no suffix token, no hyphen-spacing structure, and no
spelling-table key as a substring in either token order (the
`PlainTokenPair` side conditions): for such names, every element of the
output set expands to a subset of the original output set. For names
containing spelling-table substrings idempotence fails. -/
theorem C10_idempotent_on_plain_pairs (a b : String) (h : PlainTokenPair a b) :
    ∀ y ∈ createNameVariations (a ++ " " ++ b),
      createNameVariations y ⊆ createNameVariations (a ++ " " ++ b) := by
  obtain ⟨p1, p2, p3, p4, p5, p6, p7, p8, p9, p10, p11, p12, p13, p14, p15, p16⟩ := h
  have hab := createNameVariations_pair a b p1 p3 p5 p7 p9 p11 p12 p13 p14 p15 p16
  have hba := createNameVariations_pair b a p2 p4 p6 p8 p10 p12 p11 p14 p13 p16 p15
  intro y hy
  rw [hab] at hy
  rcases Finset.mem_insert.mp hy with rfl | hy'
  · rw [hab]
  · rw [Finset.mem_singleton.mp hy', hba, hab]
    intro z hz
    simp only [Finset.mem_insert, Finset.mem_singleton] at hz ⊢
    rcases hz with h | h
    · exact Or.inr h
    · exact Or.inl h

/-- Witness for C10 (amended): the plain pair `"Smith"`/`"Anna"`,
expanding the reversed element. -/
theorem C10_witness :
    createNameVariations "Anna Smith"
      ⊆ createNameVariations ("Smith" ++ " " ++ "Anna") :=
  C10_idempotent_on_plain_pairs "Smith" "Anna" (by decide) "Anna Smith" (by decide)

end Vault
